import Mathlib

/-!
Shallow embedding of `sky-color-wallpaper` (src/src/main.rs) for checking its
natural-language specification.

Instants (`OffsetDateTime` values in the source) are modelled as `Int` seconds;
all comparisons and duration arithmetic in the source are at second resolution
or finer and are order-homomorphic to this model.  Machine integers (`u64`
weather ids) undergo only equality tests, so they are modelled as `Nat`.
The filesystem seen by glob expansion is passed in explicitly as a function
from a pattern string to the entries it produces.
-/

namespace SkyColorWallpaper

/-- The five periods of the day (the five pattern-list fields of `Config`). -/
inductive Period
  | Midnight
  | Morning
  | EarlyAfternoon
  | LateAfternoon
  | Evening
deriving DecidableEq, Repr

/-- `openweathermap::WeatherMain` from the source (15 variants, including the
`Dizzle` spelling used there). -/
inductive WeatherMain
  | Thunderstorm
  | Dizzle
  | Rain
  | Snow
  | Mist
  | Smoke
  | Haze
  | Dust
  | Fog
  | Sand
  | Ash
  | Squall
  | Tornado
  | Clear
  | Clouds
deriving DecidableEq, Repr

/-- `openweathermap::Weather`: one condition record (numeric id, category, text). -/
structure Weather where
  id : Nat
  main : WeatherMain
  description : String
deriving DecidableEq, Repr

/-- `openweathermap::Cond`: a condition filter value, by numeric id or category. -/
inductive Cond
  | Id (id : Nat)
  | Main (main : WeatherMain)
deriving DecidableEq, Repr

/-- `openweathermap::CurrentWeatherData`: a snapshot of zero or more conditions. -/
structure CurrentWeatherData where
  weather : List Weather
deriving DecidableEq, Repr

/-- `CurrentWeatherData::matches`: any condition of the snapshot against any
filter value of the entry (code equality for `Id`, category equality for `Main`). -/
def CurrentWeatherData.matches (self : CurrentWeatherData) (conds : List Cond) : Bool :=
  self.weather.any fun w =>
    conds.any fun cond =>
      match cond with
      | Cond.Id id => w.id == id
      | Cond.Main main => w.main == main

/-- `impl Default for CurrentWeatherData`: the synthetic clear-sky snapshot. -/
def CurrentWeatherData.default : CurrentWeatherData :=
  ⟨[⟨800, WeatherMain.Clear, "clear sky (default value from sky-color-wallpaper)"⟩]⟩

/-- `Patterns`: one rule entry, an optional filter set plus its glob patterns.
The source field `on` is spelled `onFilter` here because `on` is a Lean keyword.
A `glob::Pattern` is represented by its source string (what `Pattern::as_str`
returns and what `Config::paths` re-parses at resolve time). -/
structure Patterns where
  onFilter : Option (List Cond)
  patterns : List String
deriving DecidableEq, Repr

/-- A filesystem path as seen at resolve time: its UTF-8 rendering, whether it
is a regular file, and whether the rendering is valid UTF-8 (`to_str().is_some()`). -/
structure FsPath where
  pathStr : String
  isFile : Bool
  validUtf8 : Bool
deriving DecidableEq, Repr

/-- One entry yielded by glob expansion: `Ok(path)` or a `GlobError` message. -/
abbrev GlobEntry := Except String FsPath

/-- The per-entry handling in `Config::paths` (lines 253-266): keep a UTF-8
regular file, skip (with a warning in the source) anything else. -/
def keepEntry (entry : GlobEntry) : Option String :=
  match entry with
  | Except.ok path => if path.isFile && path.validUtf8 then some path.pathStr else none
  | Except.error _ => none

/-- Extended-line value of a non-NaN float, used to give the order on `F64`. -/
inductive FExt
  | negInf
  | fin (q : ℚ)
  | posInf
deriving DecidableEq, Repr

/-- An IEEE-754 binary64 value, modelled by the classification that
`f64::is_normal` and the comparison operators observe: NaN, signed infinity,
signed zero, subnormal, or normal, the last two carrying their exact value. -/
inductive F64
  | nan
  | inf (neg : Bool)
  | zero (neg : Bool)
  | subnormal (q : ℚ)
  | normal (q : ℚ)
deriving DecidableEq, Repr

/-- The extended-line value of a float; `none` for NaN (incomparable). -/
def F64.ext : F64 → Option FExt
  | F64.nan => none
  | F64.inf b => some (if b then FExt.negInf else FExt.posInf)
  | F64.zero _ => some (FExt.fin 0)
  | F64.subnormal q => some (FExt.fin q)
  | F64.normal q => some (FExt.fin q)

/-- Order on extended-line values. -/
def FExt.leB : FExt → FExt → Bool
  | FExt.negInf, _ => true
  | FExt.fin _, FExt.negInf => false
  | FExt.fin a, FExt.fin b => a ≤ b
  | FExt.fin _, FExt.posInf => true
  | FExt.posInf, FExt.posInf => true
  | FExt.posInf, _ => false

/-- IEEE `<=` on floats: false whenever either side is NaN. -/
def F64.leB (a b : F64) : Bool :=
  match a.ext, b.ext with
  | some x, some y => x.leB y
  | _, _ => false

/-- `f64::is_normal`: neither zero, infinite, subnormal, nor NaN. -/
def F64.isNormal : F64 → Bool
  | F64.normal _ => true
  | _ => false

namespace de

/-- `de::longitude`: the value must be normal and lie in `[-180, 180]`. -/
def longitude (val : F64) : Except String F64 :=
  if val.isNormal && F64.leB (F64.normal (-180)) val && F64.leB val (F64.normal 180) then
    Except.ok val
  else
    Except.error "expected [-180, 180]"

/-- `de::latitude`: the value must be normal and lie in `[-90, 90]`. -/
def latitude (val : F64) : Except String F64 :=
  if val.isNormal && F64.leB (F64.normal (-90)) val && F64.leB val (F64.normal 90) then
    Except.ok val
  else
    Except.error "expected [-90, 90]"

/-- `de::patterns_expanding_user`: expand `~` in each string, then parse it as
a glob pattern, collecting into a list and stopping at the first failure
(`collect::<Result<_, _>>`); any failure is a deserialization (config-load)
error.  The `~` expansion and the glob parser are external collaborators,
passed as functions; a parsed `glob::Pattern` is represented by its source
string (what `Pattern::as_str` later returns). -/
def patternsExpandingUser (expandUser : String → Except String String)
    (patParse : String → Option Unit) : List String → Except String (List String)
  | [] => Except.ok []
  | s :: ss =>
    match expandUser s with
    | Except.error e => Except.error e
    | Except.ok e =>
      match patParse e with
      | none => Except.error "invalid glob pattern"
      | some _ =>
        match patternsExpandingUser expandUser patParse ss with
        | Except.error err => Except.error err
        | Except.ok rest => Except.ok (e :: rest)

end de

/-- `Config`: coordinates, optional weather-provider section (reduced to the
api-key file path), and the five per-period rule-entry lists. -/
structure Config where
  longitude : F64
  latitude : F64
  openweathermap : Option String
  midnight : List Patterns
  morning : List Patterns
  early_afternoon : List Patterns
  late_afternoon : List Patterns
  evening : List Patterns
deriving DecidableEq, Repr

/-- The pattern-list field of `Config` holding the entries of a period. -/
def Config.periodEntries (cfg : Config) : Period → List Patterns
  | Period.Midnight => cfg.midnight
  | Period.Morning => cfg.morning
  | Period.EarlyAfternoon => cfg.early_afternoon
  | Period.LateAfternoon => cfg.late_afternoon
  | Period.Evening => cfg.evening

/-- The if-chain at the head of `Config::paths` (lines 229-244): instants in
seconds, `time::Duration::minutes(90)` being `90 * 60` seconds. -/
def classify (now sunrise midday sunset midnight : Int) : Period :=
  if sunrise ≤ now ∧ now < midday then Period.Morning
  else if midday ≤ now ∧ now < sunset - 90 * 60 then Period.EarlyAfternoon
  else if midday ≤ now ∧ now < sunset then Period.LateAfternoon
  else if sunset ≤ now ∧ now < midnight then Period.Evening
  else Period.Midnight

/-- The filter closure in `Config::paths` (lines 246-250): match `(on, weather)`. -/
def entryKept (weather : Option CurrentWeatherData) (pats : Patterns) : Bool :=
  match pats.onFilter, weather with
  | some onF, some w => w.matches onF
  | some _, none => false
  | none, _ => true

/-- The flat-map pipeline of `Config::paths` (lines 245-267) applied to a list
of rule entries: flatten patterns, expand each against the filesystem `fsys`,
keep UTF-8 regular files.  Glob re-parsing is assumed to succeed here; its
explicit `unwrap` is modelled by `Config.pathsChecked` below. -/
def resolveEntries (fsys : String → List GlobEntry) (entries : List Patterns) :
    List String :=
  (((entries.flatMap fun pats => pats.patterns).flatMap fun p => fsys p).filterMap keepEntry)

/-- `Config::paths`: pick the period's entry list by the if-chain, keep the
entries whose filter matches the weather (or is absent), expand and collect. -/
def Config.paths (cfg : Config) (fsys : String → List GlobEntry)
    (now sunrise midday sunset midnight : Int)
    (weather : Option CurrentWeatherData) : List String :=
  resolveEntries fsys
    ((cfg.periodEntries (classify now sunrise midday sunset midnight)).filter
      (entryKept weather))

/-- The midnight computation of `todays_events` (lines 177-182): take the raw
`get_midnight` result when it precedes the day's start and the day's start
otherwise, then add `time::Duration::DAY` (86400 seconds). -/
def midnightBoundary (midnight todayBeginning : Int) : Int :=
  (if midnight < todayBeginning then midnight else todayBeginning) + 86400

/-- `Openweathermap::weather_data` (lines 277-312): reading the api-key file
(with its regex validation) and the network call are external collaborators,
passed as their results.  An api-key failure propagates as an error of the
whole call; a network/HTTP/parse failure is recovered (with warnings in the
source) into the synthetic default snapshot. -/
def weatherData (apiKey : Except String String)
    (network : String → Except String CurrentWeatherData) :
    Except String CurrentWeatherData :=
  match apiKey with
  | Except.error e => Except.error e
  | Except.ok key =>
      Except.ok
        (match network key with
        | Except.ok w => w
        | Except.error _ => CurrentWeatherData.default)

/-- The tail of `Config::choose` (lines 211-214): `SliceRandom::choose` picks
a uniformly random in-range index on a non-empty slice and `None` on an empty
one; the sampled index is passed in as `i` (reduced mod the length), and
`None` becomes the `No matches found` error. -/
def Config.choose (paths : List String) (i : Nat) : Except String String :=
  if h : paths.length = 0 then Except.error "No matches found"
  else Except.ok (paths.get ⟨i % paths.length, Nat.mod_lt i (Nat.pos_of_ne_zero h)⟩)

/-- `glob::glob(p)` at resolve time (line 252): re-parse the pattern string
with the same parser used at load time; a parse failure is the `Err` that
`Config::paths` unwraps. -/
def globGlob (patParse : String → Option Unit) (fsys : String → List GlobEntry)
    (p : String) : Option (List GlobEntry) :=
  (patParse p).map fun _ => fsys p

/-- `Config::paths` with the `unwrap` on `glob::glob` made explicit: `none`
models the panic that would occur if some surviving pattern failed to re-parse. -/
def Config.pathsChecked (cfg : Config) (patParse : String → Option Unit)
    (fsys : String → List GlobEntry) (now sunrise midday sunset midnight : Int)
    (weather : Option CurrentWeatherData) : Option (List String) :=
  let pats :=
    ((cfg.periodEntries (classify now sunrise midday sunset midnight)).filter
        (entryKept weather)).flatMap fun e => e.patterns
  if pats.all fun p => (globGlob patParse fsys p).isSome then
    some ((pats.flatMap fun p => fsys p).filterMap keepEntry)
  else
    none

/-- Modelled from the spec: evaluate an ordered rule table, returning the
verdict of the first rule whose guard holds, or the default when none does. -/
def firstMatch (rules : List (Bool × Period)) (dflt : Period) : Period :=
  match rules with
  | [] => dflt
  | (g, p) :: rest => if g then p else firstMatch rest dflt

/-- Modelled from the spec (section 4.1): the classification as the first
matching rule of the four ordered ranges, with Midnight as the total fallback. -/
def classifySpec (now sunrise midday sunset midnight : Int) : Period :=
  firstMatch
    [(decide (sunrise ≤ now ∧ now < midday), Period.Morning),
     (decide (midday ≤ now ∧ now < sunset - 90 * 60), Period.EarlyAfternoon),
     (decide (midday ≤ now ∧ now < sunset), Period.LateAfternoon),
     (decide (sunset ≤ now ∧ now < midnight), Period.Evening)]
    Period.Midnight

/-- Modelled from the spec (section 4.2 (a)): the aggregate-all candidate pool,
the union in declared order of the expanded patterns of every rule entry whose
filter matches or is absent. -/
def aggregateAllSpec (fsys : String → List GlobEntry)
    (weather : Option CurrentWeatherData) (entries : List Patterns) :
    List String :=
  entries.flatMap fun e =>
    if entryKept weather e then
      (e.patterns.flatMap fun p => fsys p).filterMap keepEntry
    else
      []

/-- `str::replace` (leftmost, non-overlapping) on character lists, as used by
`hide` in `openweathermap::current_weather_data_by_coordinates` (line 482).
The `k ≠ []` guard only departs from `str::replace` for an empty needle, a
case the caller never produces (api keys are 32 hex characters). -/
def replaceStr (k mask : List Char) : List Char → List Char
  | [] => []
  | c :: rest =>
    if k ≠ [] ∧ k.isPrefixOf (c :: rest) then
      mask ++ replaceStr k mask (List.drop (k.length - 1) rest)
    else
      c :: replaceStr k mask rest
termination_by s => s.length
decreasing_by
  · simp only [List.length_cons]
    have := List.length_drop (k.length - 1) rest
    omega
  · simp only [List.length_cons]
    omega

/-- `hide(s, api_key)` (lines 481-483): replace every occurrence of the key in
`s` by the key with each of its characters replaced by `'█'`. -/
def hide (s apiKey : List Char) : List Char :=
  replaceStr apiKey (apiKey.map fun _ => '█') s

/-- `k` occurs as a contiguous substring of `s`. -/
def occursIn (k s : List Char) : Prop :=
  ∃ a b, s = a ++ k ++ b

/-- The characters the api-key regex `[0-9a-f]` can produce (line 283). -/
def hexDigits : List Char :=
  ['0', '1', '2', '3', '4', '5', '6', '7', '8', '9']
    ++ ['a', 'b', 'c', 'd', 'e', 'f']

/-- Modelled from the spec: a single filter value holds of a condition record
by code equality (`Id`) or category equality (`Main`). -/
def condHolds (wt : Weather) : Cond → Prop
  | Cond.Id i => wt.id = i
  | Cond.Main m => wt.main = m

/-- A one-file filesystem: every pattern expands to the regular file `f.png`. -/
def fsOne : String → List GlobEntry :=
  fun _ => [Except.ok ⟨"f.png", true, true⟩]

/-- A configuration whose only Morning entry is filtered on the Clear category. -/
def cfgClear : Config :=
  { longitude := F64.normal 35
    latitude := F64.normal 35
    openweathermap := some "key"
    midnight := []
    morning := [⟨some [Cond.Main WeatherMain.Clear], ["p"]⟩]
    early_afternoon := []
    late_afternoon := []
    evening := [] }

/-- A configuration whose only Morning entry is unconditional. -/
def cfgPlain : Config :=
  { longitude := F64.normal 35
    latitude := F64.normal 35
    openweathermap := none
    midnight := []
    morning := [⟨none, ["p"]⟩]
    early_afternoon := []
    late_afternoon := []
    evening := [] }

/-! Theorems. -/

/-- Claim C1: the time-bucket classification is decided by the first matching
rule of the four ordered ranges (Morning, EarlyAfternoon, LateAfternoon,
Evening) and is total, falling through to Midnight when no range holds — for
every instant `now` and every four instants, with no ordering assumed. -/
theorem classify_first_match_total :
    ∀ now sunrise midday sunset midnight : Int,
      classify now sunrise midday sunset midnight =
        classifySpec now sunrise midday sunset midnight := by
  intro now sunrise midday sunset midnight
  simp only [classify, classifySpec, firstMatch, decide_eq_true_eq]

/-- Claim C2, counterexample: at raw midnight 100 and reference-day start 0 the
raw value does not precede the start, yet the boundary is 86400, not the raw
value "used as-is"; and at raw midnight -172800 (which precedes start 0) the
boundary is -86400, which is not strictly in the future of the start. -/
theorem midnightBoundary_claim_false :
    (¬ ((100 : Int) < 0) ∧ midnightBoundary 100 0 = 86400 ∧ (86400 : Int) ≠ 100)
    ∧ ((-172800 : Int) < 0 ∧ midnightBoundary (-172800) 0 = -86400
        ∧ ¬ ((0 : Int) < -86400)) := by
  decide

/-- Claim C2 (amended): the boundary equals the raw midnight advanced by one
day when the raw midnight precedes the reference day start, and the reference
day start advanced by one day otherwise; it is strictly in the future relative
to the reference day start whenever the raw midnight is later than one day
before that start. -/
theorem midnightBoundary_amended :
    ∀ raw start : Int,
      (raw < start → midnightBoundary raw start = raw + 86400)
      ∧ (start ≤ raw → midnightBoundary raw start = start + 86400)
      ∧ (start - 86400 < raw → start < midnightBoundary raw start) := by
  intro raw start
  unfold midnightBoundary
  refine ⟨fun h => by rw [if_pos h], fun h => by rw [if_neg (not_lt.mpr h)], fun h => ?_⟩
  split_ifs with h2 <;> omega

/-- Witness for the amended C2 theorem at concrete inputs. -/
theorem midnightBoundary_amended_witness :
    ((-100 : Int) < 0 ∧ midnightBoundary (-100) 0 = -100 + 86400)
    ∧ ((0 : Int) ≤ 50 ∧ midnightBoundary 50 0 = 0 + 86400)
    ∧ ((0 : Int) - 86400 < -100 ∧ (0 : Int) < midnightBoundary (-100) 0) :=
  ⟨⟨by decide, (midnightBoundary_amended (-100) 0).1 (by decide)⟩,
   ⟨by decide, (midnightBoundary_amended 50 0).2.1 (by decide)⟩,
   ⟨by decide, (midnightBoundary_amended (-100) 0).2.2 (by decide)⟩⟩

/-- Claim C3, counterexample: a failed network call is recovered into the
synthetic clear-sky snapshot, which is then present weather data, so a
Clear-filtered entry (the only entry of `cfgClear`) contributes `f.png`;
with genuinely absent weather data the same run would yield no candidates.
Selection therefore does not proceed "using unconditional rule entries only". -/
theorem weatherData_failure_not_no_data :
    weatherData (Except.ok "k") (fun _ => Except.error "HTTP 500")
        = Except.ok CurrentWeatherData.default
    ∧ cfgClear.paths fsOne 1000 0 2000 3000 4000 (some CurrentWeatherData.default)
        = ["f.png"]
    ∧ cfgClear.paths fsOne 1000 0 2000 3000 4000 none = []
    ∧ (∀ e ∈ cfgClear.morning, e.onFilter ≠ none) := by
  refine ⟨rfl, by decide, by decide, by decide⟩

/-- Claim C3 (amended): when the weather network call fails (network failure,
HTTP error status, or malformed response), the run continues — the failure is
recovered into the synthetic "clear sky" snapshot (id 800, category Clear),
which is then used as present weather data, so filtered entries matching the
Clear category or code 800 still contribute; the synthetic snapshot carries a
marker description distinguishing it from provider data.  (Only a failure to
read or validate the api-key file aborts weather acquisition with an error.) -/
theorem weatherData_failure_default :
    ∀ (key err : String) (network : String → Except String CurrentWeatherData),
      network key = Except.error err →
      weatherData (Except.ok key) network = Except.ok CurrentWeatherData.default
      ∧ CurrentWeatherData.default.matches [Cond.Main WeatherMain.Clear] = true
      ∧ CurrentWeatherData.default.matches [Cond.Id 800] = true
      ∧ CurrentWeatherData.default.weather.map Weather.description
          = ["clear sky (default value from sky-color-wallpaper)"]
      ∧ (∀ e : String, weatherData (Except.error e) network = Except.error e) := by
  intro key err network h
  refine ⟨?_, by decide, by decide, by decide, fun e => rfl⟩
  simp only [weatherData, h]

/-- Witness for the amended C3 theorem at a concrete failing network call. -/
theorem weatherData_failure_default_witness :
    (fun _ : String => (Except.error "HTTP 500" : Except String CurrentWeatherData)) "k"
        = Except.error "HTTP 500"
    ∧ weatherData (Except.ok "k") (fun _ => Except.error "HTTP 500")
        = Except.ok CurrentWeatherData.default :=
  ⟨rfl,
   (weatherData_failure_default "k" "HTTP 500" (fun _ => Except.error "HTTP 500") rfl).1⟩

/-- Claim C4: when the weather snapshot is absent, every rule entry carrying a
condition filter is dropped (`entryKept none` is false on it, so it contributes
zero patterns), entries without a filter are kept, and the candidate pool is
exactly the one resolved from the filter-less entries — an absent snapshot is
never treated as a wildcard match. -/
theorem paths_absent_weather :
    ∀ (cfg : Config) (fsys : String → List GlobEntry)
      (now sunrise midday sunset midnight : Int),
      cfg.paths fsys now sunrise midday sunset midnight none =
        resolveEntries fsys
          ((cfg.periodEntries (classify now sunrise midday sunset midnight)).filter
            fun e => e.onFilter.isNone)
      ∧ (∀ e : Patterns, e.onFilter ≠ none → entryKept none e = false)
      ∧ (∀ e : Patterns, e.onFilter = none → entryKept none e = true) := by
  intro cfg fsys now sunrise midday sunset midnight
  have hkept : ∀ e : Patterns, entryKept none e = e.onFilter.isNone := by
    intro e
    cases h : e.onFilter <;> simp [entryKept, h]
  refine ⟨?_, ?_, ?_⟩
  · unfold Config.paths
    congr 1
    exact List.filter_congr fun e _ => hkept e
  · intro e he
    rw [hkept]
    cases h : e.onFilter
    · exact absurd h he
    · rfl
  · intro e he
    rw [hkept, he]
    rfl

/-- Witness for C4: with the Clear-filtered config and no weather data, the
pool equals the filter-less resolution (which is empty), and concrete filtered
and unconditional entries are dropped and kept respectively. -/
theorem paths_absent_weather_witness :
    (cfgClear.paths fsOne 1000 0 2000 3000 4000 none =
        resolveEntries fsOne
          ((cfgClear.periodEntries (classify 1000 0 2000 3000 4000)).filter
            fun e => e.onFilter.isNone))
    ∧ entryKept none ⟨some [Cond.Main WeatherMain.Clear], ["p"]⟩ = false
    ∧ entryKept none ⟨none, ["p"]⟩ = true :=
  ⟨(paths_absent_weather cfgClear fsOne 1000 0 2000 3000 4000).1,
   (paths_absent_weather cfgClear fsOne 1000 0 2000 3000 4000).2.1 _ (by decide),
   (paths_absent_weather cfgClear fsOne 1000 0 2000 3000 4000).2.2 _ rfl⟩

/-- Claim C5: a filter set matches a snapshot iff some filter value matches
some condition of the snapshot (code equality for `Id`, category equality for
`Main`); in particular a filter set containing the numeric code of some
condition matches, regardless of any category filters present or absent. -/
theorem matches_iff :
    ∀ (w : CurrentWeatherData) (conds : List Cond),
      (w.matches conds = true ↔ ∃ wt ∈ w.weather, ∃ c ∈ conds, condHolds wt c)
      ∧ (∀ wt ∈ w.weather, Cond.Id wt.id ∈ conds → w.matches conds = true) := by
  intro w conds
  have hiff : w.matches conds = true ↔ ∃ wt ∈ w.weather, ∃ c ∈ conds, condHolds wt c := by
    simp only [CurrentWeatherData.matches, List.any_eq_true]
    constructor
    · rintro ⟨wt, hwt, c, hc, h⟩
      exact ⟨wt, hwt, c, hc, by cases c <;> simpa [condHolds] using h⟩
    · rintro ⟨wt, hwt, c, hc, h⟩
      exact ⟨wt, hwt, c, hc, by cases c <;> simpa [condHolds] using h⟩
  refine ⟨hiff, fun wt hwt hc => hiff.mpr ⟨wt, hwt, Cond.Id wt.id, hc, rfl⟩⟩

/-- Witness for C5: the snapshot `{id 800, Clear}` matches the filter set
`[Main Rain, Id 800]` through the numeric code, despite the non-matching
category filter. -/
theorem matches_iff_witness :
    (⟨800, WeatherMain.Clear, "d"⟩ : Weather)
        ∈ (⟨[⟨800, WeatherMain.Clear, "d"⟩]⟩ : CurrentWeatherData).weather
    ∧ Cond.Id 800 ∈ [Cond.Main WeatherMain.Rain, Cond.Id 800]
    ∧ CurrentWeatherData.matches ⟨[⟨800, WeatherMain.Clear, "d"⟩]⟩
        [Cond.Main WeatherMain.Rain, Cond.Id 800] = true :=
  ⟨by decide, by decide,
   (matches_iff ⟨[⟨800, WeatherMain.Clear, "d"⟩]⟩
        [Cond.Main WeatherMain.Rain, Cond.Id 800]).2 ⟨800, WeatherMain.Clear, "d"⟩
        (by decide) (by decide)⟩

/-- Claim C6: selection over an empty candidate list always fails with the
`No matches found` error (propagated as an `Except.error`, not silently), and
over a non-empty list it always returns some member of that list, whatever
index the random generator produced. -/
theorem choose_empty_error_nonempty_member :
    ∀ (paths : List String) (i : Nat),
      (paths = [] → Config.choose paths i = Except.error "No matches found")
      ∧ (paths ≠ [] → ∃ x ∈ paths, Config.choose paths i = Except.ok x) := by
  intro paths i
  constructor
  · intro h
    subst h
    rfl
  · intro h
    have hlen : paths.length ≠ 0 := fun hl => h (List.eq_nil_of_length_eq_zero hl)
    refine ⟨paths.get ⟨i % paths.length, Nat.mod_lt i (Nat.pos_of_ne_zero hlen)⟩,
      List.get_mem _ _ _, ?_⟩
    unfold Config.choose
    rw [dif_neg hlen]

/-- Witness for C6: the empty list errors; `["a", "b"]` with sampled index 3
returns a member. -/
theorem choose_empty_error_nonempty_member_witness :
    Config.choose [] 0 = Except.error "No matches found"
    ∧ ∃ x ∈ ["a", "b"], Config.choose ["a", "b"] 3 = Except.ok x :=
  ⟨(choose_empty_error_nonempty_member [] 0).1 rfl,
   (choose_empty_error_nonempty_member ["a", "b"] 3).2 (by decide)⟩

/-- Claim C7: longitude deserialization succeeds exactly on normal floats in
`[-180, 180]` and latitude deserialization exactly on normal floats in
`[-90, 90]`; every other value (NaN, infinities, zeros, subnormals, or
out-of-range normals) is rejected with a load-time error. -/
theorem coordinate_validation_iff :
    ∀ v : F64,
      (de.longitude v = Except.ok v ↔ ∃ q : ℚ, v = F64.normal q ∧ -180 ≤ q ∧ q ≤ 180)
      ∧ (de.latitude v = Except.ok v ↔ ∃ q : ℚ, v = F64.normal q ∧ -90 ≤ q ∧ q ≤ 90)
      ∧ (¬ (∃ q : ℚ, v = F64.normal q ∧ -180 ≤ q ∧ q ≤ 180) →
          de.longitude v = Except.error "expected [-180, 180]")
      ∧ (¬ (∃ q : ℚ, v = F64.normal q ∧ -90 ≤ q ∧ q ≤ 90) →
          de.latitude v = Except.error "expected [-90, 90]") := by
  intro v
  have hlon : de.longitude v = Except.ok v ↔ ∃ q : ℚ, v = F64.normal q ∧ -180 ≤ q ∧ q ≤ 180 := by
    cases v <;>
      simp [de.longitude, F64.isNormal, F64.leB, F64.ext, FExt.leB]
  have hlat : de.latitude v = Except.ok v ↔ ∃ q : ℚ, v = F64.normal q ∧ -90 ≤ q ∧ q ≤ 90 := by
    cases v <;>
      simp [de.latitude, F64.isNormal, F64.leB, F64.ext, FExt.leB]
  refine ⟨hlon, hlat, fun h => ?_, fun h => ?_⟩
  · unfold de.longitude at hlon ⊢
    split_ifs with hc
    · exact absurd (by rw [if_pos hc] at hlon; exact hlon.mp rfl) h
    · rfl
  · unfold de.latitude at hlat ⊢
    split_ifs with hc
    · exact absurd (by rw [if_pos hc] at hlat; exact hlat.mp rfl) h
    · rfl

/-- Witness for C7: NaN is rejected by both validators. -/
theorem coordinate_validation_iff_witness :
    (¬ (∃ q : ℚ, F64.nan = F64.normal q ∧ -180 ≤ q ∧ q ≤ 180))
    ∧ de.longitude F64.nan = Except.error "expected [-180, 180]"
    ∧ de.latitude F64.nan = Except.error "expected [-90, 90]" :=
  ⟨by simp,
   (coordinate_validation_iff F64.nan).2.2.1 (by simp),
   (coordinate_validation_iff F64.nan).2.2.2 (by simp)⟩

/-- Resolving a cons of entries splits into the head's expansion and the rest. -/
theorem resolveEntries_cons (fsys : String → List GlobEntry) (e : Patterns)
    (rest : List Patterns) :
    resolveEntries fsys (e :: rest) =
      ((e.patterns.flatMap fun p => fsys p).filterMap keepEntry)
        ++ resolveEntries fsys rest := by
  unfold resolveEntries
  rw [List.flatMap_cons, List.flatMap_append, List.filterMap_append]

/-- Filtering entries then resolving equals the spec's aggregate-all pool. -/
theorem resolveEntries_filter_eq (fsys : String → List GlobEntry)
    (weather : Option CurrentWeatherData) :
    ∀ entries : List Patterns,
      resolveEntries fsys (entries.filter (entryKept weather)) =
        aggregateAllSpec fsys weather entries := by
  intro entries
  induction entries with
  | nil => rfl
  | cons e es ih =>
    by_cases h : entryKept weather e = true
    · rw [List.filter_cons_of_pos h, resolveEntries_cons, ih]
      simp [aggregateAllSpec, List.flatMap_cons, h]
    · rw [List.filter_cons_of_neg h, ih]
      simp [aggregateAllSpec, List.flatMap_cons, h]

/-- Claim C10: the candidate resolver implements the aggregate-all policy as
defined from the spec's words — for every period, ruleset and optional weather
snapshot, the pool is the union, in declared order, of the expanded patterns
of every rule entry whose filter matches or is absent. -/
theorem paths_is_aggregate_all :
    ∀ (cfg : Config) (fsys : String → List GlobEntry)
      (now sunrise midday sunset midnight : Int)
      (weather : Option CurrentWeatherData),
      cfg.paths fsys now sunrise midday sunset midnight weather =
        aggregateAllSpec fsys weather
          (cfg.periodEntries (classify now sunrise midday sunset midnight)) := by
  intro cfg fsys now sunrise midday sunset midnight weather
  exact resolveEntries_filter_eq fsys weather _

/-- Every pattern string collected by a successful load parses as a glob. -/
theorem patternsExpandingUser_ok_parse (expandUser : String → Except String String)
    (patParse : String → Option Unit) :
    ∀ (ss ps : List String),
      de.patternsExpandingUser expandUser patParse ss = Except.ok ps →
      ∀ p ∈ ps, (patParse p).isSome = true := by
  intro ss
  induction ss with
  | nil =>
    intro ps h p hp
    unfold de.patternsExpandingUser at h
    simp only [Except.ok.injEq] at h
    subst h
    simp at hp
  | cons s ss ih =>
    intro ps h p hp
    unfold de.patternsExpandingUser at h
    cases he : expandUser s with
    | error err => rw [he] at h; simp at h
    | ok e =>
      simp only [he] at h
      cases hp2 : patParse e with
      | none => simp only [hp2] at h; exact absurd h (by simp)
      | some u =>
        simp only [hp2] at h
        cases hr : de.patternsExpandingUser expandUser patParse ss with
        | error err => simp only [hr] at h; exact absurd h (by simp)
        | ok rest =>
          simp only [hr, Except.ok.injEq] at h
          subst h
          rcases List.mem_cons.mp hp with rfl | hmem
          · rw [hp2]; rfl
          · exact ih rest hr p hmem

/-- Claim C8: for a configuration that loaded successfully (each of its rule
entries' pattern lists was produced by `de::patterns_expanding_user` with the
same glob parser), the re-parse of every surviving pattern at resolve time
succeeds, so the `unwrap` on `glob::glob` is unreachable: `pathsChecked`, in
which that `unwrap` is explicit, never panics and agrees with `paths`. -/
theorem pathsChecked_eq_of_loaded :
    ∀ (cfg : Config) (expandUser : String → Except String String)
      (patParse : String → Option Unit) (fsys : String → List GlobEntry)
      (now sunrise midday sunset midnight : Int)
      (weather : Option CurrentWeatherData),
      (∀ per : Period, ∀ e ∈ cfg.periodEntries per, ∃ ss,
          de.patternsExpandingUser expandUser patParse ss = Except.ok e.patterns) →
      cfg.pathsChecked patParse fsys now sunrise midday sunset midnight weather =
        some (cfg.paths fsys now sunrise midday sunset midnight weather) := by
  intro cfg expandUser patParse fsys now sunrise midday sunset midnight weather hload
  unfold Config.pathsChecked
  have hall : ∀ p ∈ ((cfg.periodEntries
        (classify now sunrise midday sunset midnight)).filter
          (entryKept weather)).flatMap (fun e => e.patterns),
      (globGlob patParse fsys p).isSome = true := by
    intro p hp
    rw [List.mem_flatMap] at hp
    obtain ⟨e, he, hpe⟩ := hp
    obtain ⟨ss, hss⟩ := hload _ e (List.mem_filter.mp he).1
    have hps := patternsExpandingUser_ok_parse expandUser patParse ss e.patterns hss p hpe
    cases hpp : patParse p with
    | none => rw [hpp] at hps; simp at hps
    | some u => simp [globGlob, hpp]
  rw [if_pos (List.all_eq_true.mpr hall)]
  rfl

/-- Witness for C8: the unconditional config loaded from `["p"]` under a total
parser resolves without hitting the unwrap. -/
theorem pathsChecked_eq_of_loaded_witness :
    (∀ per : Period, ∀ e ∈ cfgPlain.periodEntries per, ∃ ss,
        de.patternsExpandingUser Except.ok (fun _ => some ()) ss =
          Except.ok e.patterns)
    ∧ cfgPlain.pathsChecked (fun _ => some ()) fsOne 1000 0 2000 3000 4000 none =
        some (cfgPlain.paths fsOne 1000 0 2000 3000 4000 none) := by
  have h : ∀ per : Period, ∀ e ∈ cfgPlain.periodEntries per, ∃ ss,
      de.patternsExpandingUser Except.ok (fun _ => some ()) ss =
        Except.ok e.patterns := by
    intro per e he
    cases per <;> simp [cfgPlain, Config.periodEntries] at he
    rw [he]
    exact ⟨["p"], rfl⟩
  exact ⟨h, pathsChecked_eq_of_loaded cfgPlain Except.ok (fun _ => some ()) fsOne
    1000 0 2000 3000 4000 none h⟩

/-- `isPrefixOf` as an existential decomposition. -/
theorem isPrefixOf_eq_exists :
    ∀ (k s : List Char), k.isPrefixOf s = true ↔ ∃ q, s = k ++ q := by
  intro k
  induction k with
  | nil => intro s; simp [List.isPrefixOf]
  | cons a k ih =>
    intro s
    cases s with
    | nil => simp [List.isPrefixOf]
    | cons b t =>
      simp only [List.isPrefixOf, Bool.and_eq_true, beq_iff_eq, ih]
      constructor
      · rintro ⟨hab, q, ht⟩
        exact ⟨q, by rw [List.cons_append, ht, hab]⟩
      · rintro ⟨q, hq⟩
        rw [List.cons_append] at hq
        injection hq with h1 h2
        exact ⟨h1.symm, q, h2⟩

/-- An occurrence in a cons is either an occurrence at the head or one in the
tail. -/
theorem occursIn_cons (k : List Char) (x : Char) (t : List Char) :
    occursIn k (x :: t) ↔ (∃ q, x :: t = k ++ q) ∨ occursIn k t := by
  constructor
  · rintro ⟨a, b, hab⟩
    cases a with
    | nil => exact Or.inl ⟨b, by simpa using hab⟩
    | cons a0 a' =>
      rw [List.cons_append, List.cons_append] at hab
      injection hab with h1 h2
      exact Or.inr ⟨a', b, h2⟩
  · rintro (⟨q, hq⟩ | ⟨a, b, hab⟩)
    · exact ⟨[], q, by simpa using hq⟩
    · exact ⟨x :: a, b, by rw [List.cons_append, List.cons_append, hab]⟩

/-- An occurrence of `k` in `a ++ b` where no character of `k` appears in `a`
is an occurrence in `b`. -/
theorem occursIn_append_right (k : List Char) (hk : k ≠ []) :
    ∀ a b : List Char, (∀ c ∈ k, c ∉ a) → occursIn k (a ++ b) → occursIn k b := by
  intro a
  induction a with
  | nil => intro b _ h; simpa using h
  | cons x a' ih =>
    intro b hna h
    rw [List.cons_append] at h
    rcases (occursIn_cons k x (a' ++ b)).mp h with ⟨q, hq⟩ | h2
    · cases k with
      | nil => exact absurd rfl hk
      | cons c k' =>
        rw [List.cons_append] at hq
        injection hq with h1 _
        subst h1
        exact absurd (List.mem_cons_self x a') (hna x (List.mem_cons_self x k'))
    · exact ih b (fun c hc hca => hna c hc (List.mem_cons_of_mem x hca)) h2

/-- A non-empty, `'█'`-free prefix of the masked output is a prefix of the
original input: masking only ever removes material such a prefix could use. -/
theorem replaceStr_pres_pref (k : List Char) :
    ∀ (n : Nat) (s : List Char), s.length ≤ n →
      ∀ k2 : List Char, k2 ≠ [] → '█' ∉ k2 →
        k2.isPrefixOf (replaceStr k (k.map fun _ => '█') s) = true →
        k2.isPrefixOf s = true := by
  intro n
  induction n with
  | zero =>
    intro s hs k2 hk2 _ hpre
    have hnil : s = [] := List.eq_nil_of_length_eq_zero (Nat.le_zero.mp hs)
    subst hnil
    simp only [replaceStr] at hpre
    cases k2 with
    | nil => exact absurd rfl hk2
    | cons d k3 => simp [List.isPrefixOf] at hpre
  | succ n ih =>
    intro s hs k2 hk2 hmask hpre
    cases s with
    | nil =>
      simp only [replaceStr] at hpre
      cases k2 with
      | nil => exact absurd rfl hk2
      | cons d k3 => simp [List.isPrefixOf] at hpre
    | cons c rest =>
      simp only [replaceStr] at hpre
      by_cases hc : k ≠ [] ∧ k.isPrefixOf (c :: rest) = true
      · rw [if_pos hc] at hpre
        cases hkk : k with
        | nil => exact absurd hkk hc.1
        | cons kc kk =>
          rw [hkk] at hpre
          cases k2 with
          | nil => exact absurd rfl hk2
          | cons d k3 =>
            simp only [List.map_cons, List.cons_append, List.isPrefixOf,
              Bool.and_eq_true, beq_iff_eq] at hpre
            exact absurd (hpre.1 ▸ List.mem_cons_self d k3) hmask
      · rw [if_neg hc] at hpre
        cases k2 with
        | nil => exact absurd rfl hk2
        | cons d k3 =>
          simp only [List.isPrefixOf, Bool.and_eq_true, beq_iff_eq] at hpre
          obtain ⟨hdc, hk3⟩ := hpre
          cases hk3e : k3 with
          | nil => simp [hk3e, List.isPrefixOf, hdc]
          | cons e3 k4 =>
            have hlen : rest.length ≤ n := by
              simp only [List.length_cons] at hs
              omega
            have h3 : k3.isPrefixOf rest = true := by
              apply ih rest hlen k3 (by rw [hk3e]; simp)
                (fun hm => hmask (List.mem_cons_of_mem d hm)) hk3
            simp only [List.isPrefixOf, Bool.and_eq_true, beq_iff_eq]
            exact ⟨hdc, hk3e ▸ h3⟩

/-- The masked output contains no occurrence of a non-empty, `'█'`-free key. -/
theorem replaceStr_no_occurrence (k : List Char) (hk : k ≠ []) (hmask : '█' ∉ k) :
    ∀ (n : Nat) (s : List Char), s.length ≤ n →
      ¬ occursIn k (replaceStr k (k.map fun _ => '█') s) := by
  intro n
  induction n with
  | zero =>
    intro s hs hocc
    have hnil : s = [] := List.eq_nil_of_length_eq_zero (Nat.le_zero.mp hs)
    subst hnil
    simp only [replaceStr] at hocc
    obtain ⟨a, b, hab⟩ := hocc
    rcases List.append_eq_nil.mp hab.symm with ⟨hab2, -⟩
    exact hk (List.append_eq_nil.mp hab2).2
  | succ n ih =>
    intro s hs hocc
    cases s with
    | nil =>
      simp only [replaceStr] at hocc
      obtain ⟨a, b, hab⟩ := hocc
      rcases List.append_eq_nil.mp hab.symm with ⟨hab2, -⟩
      exact hk (List.append_eq_nil.mp hab2).2
    | cons c rest =>
      simp only [replaceStr] at hocc
      by_cases hc : k ≠ [] ∧ k.isPrefixOf (c :: rest) = true
      · rw [if_pos hc] at hocc
        have hdroplen : (List.drop (k.length - 1) rest).length ≤ n := by
          rw [List.length_drop]
          simp only [List.length_cons] at hs
          omega
        apply ih _ hdroplen
        apply occursIn_append_right k hk (k.map fun _ => '█') _ ?notin hocc
        case notin =>
          intro ch hch hchm
          rw [List.mem_map] at hchm
          obtain ⟨_, -, hch2⟩ := hchm
          exact hmask (hch2 ▸ hch)
      · rw [if_neg hc] at hocc
        rcases (occursIn_cons k c _).mp hocc with ⟨q, hq⟩ | h2
        · have hpre : k.isPrefixOf
              (c :: replaceStr k (k.map fun _ => '█') rest) = true :=
            (isPrefixOf_eq_exists k _).mpr ⟨q, hq⟩
          cases hkk : k with
          | nil => exact hk hkk
          | cons d k3 =>
            subst hkk
            simp only [List.isPrefixOf, Bool.and_eq_true, beq_iff_eq] at hpre
            obtain ⟨hdc, hk3⟩ := hpre
            cases hk3e : k3 with
            | nil =>
              exact hc ⟨by simp, by simp [hk3e, List.isPrefixOf, hdc]⟩
            | cons e3 k4 =>
              have h3 : k3.isPrefixOf rest = true := by
                apply replaceStr_pres_pref (d :: k3) rest.length rest le_rfl k3
                  (by rw [hk3e]; simp)
                  (fun hm => hmask (List.mem_cons_of_mem d hm)) hk3
              refine hc ⟨by simp, ?_⟩
              simp only [List.isPrefixOf, Bool.and_eq_true, beq_iff_eq]
              exact ⟨hdc, h3⟩
        · have hlen : rest.length ≤ n := by
            simp only [List.length_cons] at hs
            omega
          exact ih rest hlen h2

/-- Claim C9: for every non-empty api key consisting of the characters the
key-validation regex admits and every logged string, `hide` replaces the key
with mask characters of equal length and the masked output does not contain
the key as a substring. -/
theorem hide_masks_key :
    ∀ (apiKey s : List Char),
      apiKey ≠ [] → (∀ c ∈ apiKey, c ∈ hexDigits) →
      (apiKey.map fun _ => '█').length = apiKey.length
      ∧ ¬ occursIn apiKey (hide s apiKey) := by
  intro k s hk hhex
  have hm : '█' ∉ k := fun h => by
    have := hhex _ h
    simp [hexDigits] at this
  exact ⟨by simp, replaceStr_no_occurrence k hk hm s.length s le_rfl⟩

/-- Witness for C9: hiding the key `"ab"` inside `"xabz"`. -/
theorem hide_masks_key_witness :
    (['a', 'b'] ≠ ([] : List Char))
    ∧ (∀ c ∈ (['a', 'b'] : List Char), c ∈ hexDigits)
    ∧ ((['a', 'b'].map fun _ => '█').length = (['a', 'b'] : List Char).length
        ∧ ¬ occursIn ['a', 'b'] (hide ['x', 'a', 'b', 'z'] ['a', 'b'])) :=
  ⟨by decide, by decide,
   hide_masks_key ['a', 'b'] ['x', 'a', 'b', 'z'] (by decide) (by decide)⟩

end SkyColorWallpaper
